import Mathlib

/-!
Verification of `src/sweeps.py` (faithfulness sweep engine).

The Python module is shallowly embedded below.  Python floats are modelled
as rationals (`ℚ`): none of the verified properties depend on rounding, only
on the values stored and compared.  Tensors are modelled as lists of
rationals; the in-place tensor mutation performed by the beta loop
(`operator.bias[:] = bias * beta`) is modelled with an explicit heap of
tensors so that aliasing is observable.

External collaborators of the sweep (`data`, `operators`, `metrics`,
`functional`, `experiment_utils`, the model/tokenizer) are not part of the
given source; each is modelled from the spec where it is needed and is
documented as such at its definition.
-/

/-- A tensor value: a vector of rationals. -/
abbrev Tensor : Type := List ℚ

/-- Modelled from the spec: `data.RelationSample` (data.py is not under
src/): a (subject, object) pair belonging to a relation. -/
structure RelationSample where
  subject : String
  object : String
deriving DecidableEq

/-- Modelled from the spec: `data.Relation` (data.py is not under src/):
a name, an ordered list of prompt templates, and a list of samples. -/
structure Relation where
  name : String
  prompt_templates : List String
  samples : List RelationSample
deriving DecidableEq

/-- Modelled from the spec: `Relation.set` builds the relation restricted to
a training sample set and a single prompt template, as handed to the
estimator (`relation.set(samples=..., prompt_templates=...)`). -/
def Relation.set (r : Relation) (samples : List RelationSample)
    (prompt_templates : List String) : Relation :=
  ⟨r.name, prompt_templates, samples⟩

/-- Dataclass `SweepFaithfulnessBetaResults`: (beta, recall@1..K) for one beta. -/
structure SweepFaithfulnessBetaResults where
  beta : ℚ
  «recall» : List ℚ
deriving DecidableEq

/-- Python's `max(xs, key=key)` scan: the current maximum is replaced only
when a strictly greater key appears, so the first maximum wins ties. -/
def pymaxBy {α : Type} (key : α → ℚ) : α → List α → α
  | cur, [] => cur
  | cur, x :: xs => pymaxBy key (if key cur < key x then x else cur) xs

/-- Python's `max(xs, key=key)`; `none` models the `ValueError` raised on an
empty list. -/
def pymax {α : Type} (key : α → ℚ) : List α → Option α
  | [] => none
  | x :: xs => some (pymaxBy key x xs)

/-- Dataclass `SweepFaithfulnessTrainResults`: one training draw plus all grid
results. -/
structure SweepFaithfulnessTrainResults where
  samples : List RelationSample
  betas : List SweepFaithfulnessBetaResults
deriving DecidableEq

/-- Method `SweepFaithfulnessTrainResults.best`: `max(self.betas, key=lambda x:
x.recall[k - 1])`.  Python indexing out of range raises; it is modelled
in-range only (theorems carry the length hypothesis), with `getD _ 0`
standing in for `recall[k-1]`.  The Python default `k=1` is passed
explicitly at call sites. -/
def SweepFaithfulnessTrainResults.best (r : SweepFaithfulnessTrainResults)
    (k : Nat) : Option SweepFaithfulnessBetaResults :=
  pymax (fun x => x.recall.getD (k - 1) 0) r.betas

/-- Total version of `best` used inside `by_layer` (the source calls
`layer.result.best()`, which raises on an empty beta list; the default
below is irrelevant under the nonemptiness every theorem assumes). -/
def bestD (r : SweepFaithfulnessTrainResults) (k : Nat) :
    SweepFaithfulnessBetaResults :=
  (r.best k).getD ⟨0, []⟩

/-- Dataclass `SweepFaithfulnessLayerResults`: (layer, TrainResults). -/
structure SweepFaithfulnessLayerResults where
  layer : Nat
  result : SweepFaithfulnessTrainResults
deriving DecidableEq

/-- Dataclass `SweepFaithfulnessTrialResults`: (prompt template, train split, ordered
per-layer results). -/
structure SweepFaithfulnessTrialResults where
  prompt_template : String
  train_samples : List RelationSample
  layers : List SweepFaithfulnessLayerResults
deriving DecidableEq

/-- Modelled from the spec: `metrics.AggregateMetric` (metrics.py is not
under src/): the spec's by-layer summary holds the mean of the aggregated
values across trials (only the mean is consumed by `best`). -/
structure AggregateMetric where
  mean : ℚ
  values : List ℚ
deriving DecidableEq

/-- Modelled from the spec: `metrics.AggregateMetric.aggregate` computes the
mean of the values (never applied to an empty list by the sweep). -/
def AggregateMetric.aggregate (xs : List ℚ) : AggregateMetric :=
  ⟨xs.sum / (xs.length : ℚ), xs⟩

/-- Dataclass `SweepFaithfulnessLayerSummary`: per-layer aggregate of best beta and
best recall. -/
structure SweepFaithfulnessLayerSummary where
  layer : Nat
  beta : AggregateMetric
  «recall» : AggregateMetric
deriving DecidableEq

/-- Dataclass `SweepFaithfulnessRelationResults`: (relation name, trials). -/
structure SweepFaithfulnessRelationResults where
  relation_name : String
  trials : List SweepFaithfulnessTrialResults
deriving DecidableEq

/-- Python `defaultdict(list)` grouping with Python dict key order: the value is
appended under its key, keys kept in first-appearance order. -/
def insertGrouped (k : Nat) (v : ℚ × ℚ) :
    List (Nat × List (ℚ × ℚ)) → List (Nat × List (ℚ × ℚ))
  | [] => [(k, [v])]
  | (k', vs) :: rest =>
      if k' = k then (k', vs ++ [v]) :: rest else (k', vs) :: insertGrouped k v rest

/-- Method `SweepFaithfulnessRelationResults.by_layer`: for every trial and layer
entry, take `layer.result.best()` (note: default `k=1` in the source) and
group `(best.beta, best.recall[k-1])` by layer number, then aggregate the
betas and the recalls per layer.  The Python dicts preserve insertion
order; they are modelled as an association list in key first-appearance
order (keys are unique by construction). -/
def SweepFaithfulnessRelationResults.by_layer
    (r : SweepFaithfulnessRelationResults) (k : Nat) :
    List (Nat × SweepFaithfulnessLayerSummary) :=
  let results_by_layer :=
    r.trials.foldl (fun acc trial =>
      trial.layers.foldl (fun acc layer =>
        let best := bestD layer.result 1
        insertGrouped layer.layer (best.beta, best.recall.getD (k - 1) 0) acc)
        acc) []
  results_by_layer.map fun p =>
    (p.1, ⟨p.1, AggregateMetric.aggregate (p.2.map Prod.fst),
      AggregateMetric.aggregate (p.2.map Prod.snd)⟩)

/-- Method `SweepFaithfulnessRelationResults.best`: the source computes
`results_by_layer = self.by_layer()` — crucially without passing `k` — and
then `max(results_by_layer, key=lambda x: results_by_layer[x].recall.mean)`
over the dict keys in insertion order (first maximum wins), returning the
summary at that key; since the association-list keys are unique, this is
the first pair maximizing the summary's recall mean.  `none` models the
`ValueError` on an empty dict. -/
def SweepFaithfulnessRelationResults.best
    (r : SweepFaithfulnessRelationResults) (k : Nat) :
    Option SweepFaithfulnessLayerSummary :=
  let results_by_layer := r.by_layer 1
  (pymax (fun p => p.2.recall.mean) results_by_layer).map Prod.snd

/-- Dataclass `SweepFaithfulnessResuts` (sic): the sweep's final output. -/
structure SweepFaithfulnessResuts where
  relations : List SweepFaithfulnessRelationResults
deriving DecidableEq

/-- Scanning with `pymaxBy` against an accumulator either keeps the accumulator (every
scanned key is ≤ its key) or returns the first list element whose key
strictly exceeds the accumulator's and is a maximum; everything strictly
before that element has a strictly smaller key. -/
theorem pymaxBy_spec {α : Type} (key : α → ℚ) :
    ∀ (xs : List α) (cur : α),
      (pymaxBy key cur xs = cur ∧ ∀ y ∈ xs, key y ≤ key cur) ∨
      (∃ pre b post, xs = pre ++ b :: post ∧ pymaxBy key cur xs = b ∧
        key cur < key b ∧ (∀ y ∈ xs, key y ≤ key b) ∧ (∀ y ∈ pre, key y < key b))
  | [], cur => Or.inl ⟨rfl, by simp⟩
  | x :: rest, cur => by
    by_cases h : key cur < key x
    · have hstep : pymaxBy key cur (x :: rest) = pymaxBy key x rest := by
        simp [pymaxBy, if_pos h]
      rcases pymaxBy_spec key rest x with ⟨heq, hle⟩ | ⟨pre, b, post, hxs, heq, hlt, hle, hpre⟩
      · refine Or.inr ⟨[], x, rest, by simp, by rw [hstep, heq], h, ?_, by simp⟩
        intro y hy
        rcases List.mem_cons.mp hy with hy | hy
        · exact le_of_eq (by rw [hy])
        · exact hle y hy
      · refine Or.inr ⟨x :: pre, b, post, by simp [hxs], by rw [hstep, heq],
          lt_trans h hlt, ?_, ?_⟩
        · intro y hy
          rcases List.mem_cons.mp hy with hy | hy
          · exact le_of_lt (hy ▸ hlt)
          · exact hle y hy
        · intro y hy
          rcases List.mem_cons.mp hy with hy | hy
          · exact hy ▸ hlt
          · exact hpre y hy
    · have hxle : key x ≤ key cur := not_lt.mp h
      have hstep : pymaxBy key cur (x :: rest) = pymaxBy key cur rest := by
        simp [pymaxBy, if_neg h]
      rcases pymaxBy_spec key rest cur with ⟨heq, hle⟩ | ⟨pre, b, post, hxs, heq, hlt, hle, hpre⟩
      · refine Or.inl ⟨by rw [hstep, heq], ?_⟩
        intro y hy
        rcases List.mem_cons.mp hy with hy | hy
        · exact hy ▸ hxle
        · exact hle y hy
      · refine Or.inr ⟨x :: pre, b, post, by simp [hxs], by rw [hstep, heq], hlt, ?_, ?_⟩
        · intro y hy
          rcases List.mem_cons.mp hy with hy | hy
          · exact le_of_lt (lt_of_le_of_lt (hy ▸ hxle) hlt)
          · exact hle y hy
        · intro y hy
          rcases List.mem_cons.mp hy with hy | hy
          · exact lt_of_le_of_lt (hy ▸ hxle) hlt
          · exact hpre y hy

/-- Python's `max` with a key returns the first maximizer: the result splits
the list into a prefix of strictly smaller keys, the maximizer, and a
suffix of keys no larger. -/
theorem pymax_first_max {α : Type} (key : α → ℚ) (xs : List α) (hne : xs ≠ []) :
    ∃ pre b post, xs = pre ++ b :: post ∧ pymax key xs = some b ∧
      (∀ y ∈ xs, key y ≤ key b) ∧ (∀ y ∈ pre, key y < key b) := by
  match xs, hne with
  | x :: rest, _ =>
    rcases pymaxBy_spec key rest x with ⟨heq, hle⟩ | ⟨pre, b, post, hxs, heq, hlt, hle, hpre⟩
    · refine ⟨[], x, rest, by simp, by simp [pymax, heq], ?_, by simp⟩
      intro y hy
      rcases List.mem_cons.mp hy with hy | hy
      · exact le_of_eq (by rw [hy])
      · exact hle y hy
    · refine ⟨x :: pre, b, post, by simp [hxs], by simp [pymax, heq], ?_, ?_⟩
      · intro y hy
        rcases List.mem_cons.mp hy with hy | hy
        · exact le_of_lt (hy ▸ hlt)
        · exact hle y (hxs ▸ hy)
      · intro y hy
        rcases List.mem_cons.mp hy with hy | hy
        · exact hy ▸ hlt
        · exact hpre y hy

/-- C3: for every k ≥ 1 and every non-empty beta list whose recall vectors
reach position k, `TrainResults.best(k)` returns the `BetaResults` whose
recall@k is maximal among all betas tried, and on ties the first such beta
in grid (list) order: the returned beta dominates every entry, and every
entry strictly before it in the grid has strictly smaller recall@k. -/
theorem trainresults_best_first_argmax (r : SweepFaithfulnessTrainResults)
    (k : Nat) (hne : r.betas ≠ []) (hk : 1 ≤ k)
    (hlen : ∀ b ∈ r.betas, k ≤ b.recall.length) :
    ∃ pre b post, r.betas = pre ++ b :: post ∧ r.best k = some b ∧
      (∀ y ∈ r.betas, y.recall.getD (k - 1) 0 ≤ b.recall.getD (k - 1) 0) ∧
      (∀ y ∈ pre, y.recall.getD (k - 1) 0 < b.recall.getD (k - 1) 0) := by
  have h := pymax_first_max
    (fun x : SweepFaithfulnessBetaResults => x.recall.getD (k - 1) 0) r.betas hne
  simpa [SweepFaithfulnessTrainResults.best] using h

/-- Concrete grid for exercising `TrainResults.best`: recall@1 ties between
the first and third beta. -/
def c3Example : SweepFaithfulnessTrainResults :=
  ⟨[], [⟨0, [1, 0]⟩, ⟨(1 : ℚ)/2, [0, 1]⟩, ⟨1, [1, 1]⟩]⟩

/-- Witness for C3 at `c3Example` with k = 1: the hypotheses hold and the
returned beta is the first of the two tied maximizers. -/
theorem trainresults_best_first_argmax_witness :
    ∃ pre b post, c3Example.betas = pre ++ b :: post ∧
      c3Example.best 1 = some b ∧
      (∀ y ∈ c3Example.betas, y.recall.getD 0 0 ≤ b.recall.getD 0 0) ∧
      (∀ y ∈ pre, y.recall.getD 0 0 < b.recall.getD 0 0) :=
  trainresults_best_first_argmax c3Example 1 (by decide) (by decide) (by decide)

/-- A relation result on which `best(k)` diverges from the spec: one trial,
two layers; layer 5's best-beta recall vector is [1, 0] and layer 7's is
[0, 1], so layer 5 maximizes mean recall@1 while layer 7 maximizes mean
recall@2. -/
def c1Example : SweepFaithfulnessRelationResults :=
  ⟨"country capital",
    [⟨"template", [],
      [⟨5, ⟨[], [⟨0, [1, 0]⟩]⟩⟩,
       ⟨7, ⟨[], [⟨0, [0, 1]⟩]⟩⟩]⟩]⟩

/-- C1: the claim fails for k = 2 — `RelationResults.best(k)` evaluates
`self.by_layer()` without forwarding `k`, so it maximizes mean recall@1 for
every k.  On `c1Example`, `best(2)` returns layer 5, although layer 7 is
the unique layer maximizing mean recall@2 (mean 1 versus mean 0). -/
theorem relationresults_best_ignores_k :
    (c1Example.best 2).map (fun s => s.layer) = some 5 ∧
    ((c1Example.by_layer 2).lookup 7).map (fun s => s.recall.mean) = some 1 ∧
    ((c1Example.by_layer 2).lookup 5).map (fun s => s.recall.mean) = some 0 := by
  refine ⟨?_, ?_, ?_⟩ <;>
    norm_num [c1Example, SweepFaithfulnessRelationResults.best,
      SweepFaithfulnessRelationResults.by_layer, bestD,
      SweepFaithfulnessTrainResults.best, pymax, pymaxBy, insertGrouped,
      AggregateMetric.aggregate, List.lookup]
  all_goals simp

/-- A heap of tensor objects; addresses are list indices.  Reads and writes
out of range are modelled as no-ops (never exercised: every address used
below is allocated first). -/
structure Heap where
  tensors : List Tensor
deriving DecidableEq

/-- An address of a tensor object in a `Heap`. -/
abbrev Addr : Type := Nat

/-- Read the tensor object at an address. -/
def Heap.read (h : Heap) (a : Addr) : Tensor :=
  h.tensors.getD a []

/-- Overwrite the tensor object at an address in place
(`tensor[:] = value`). -/
def Heap.write (h : Heap) (a : Addr) (t : Tensor) : Heap :=
  ⟨h.tensors.set a t⟩

/-- Allocate a fresh tensor object (`torch.Tensor.clone` and the estimator's
freshly created bias): the new address is distinct from every live one. -/
def Heap.alloc (h : Heap) (t : Tensor) : Heap × Addr :=
  (⟨h.tensors ++ [t]⟩, h.tensors.length)

/-- Elementwise scalar multiplication, `tensor * beta`. -/
def tensorScale (t : Tensor) (beta : ℚ) : Tensor :=
  t.map (fun x => x * beta)

theorem Heap.read_write_self (h : Heap) (a : Addr) (t : Tensor)
    (ha : a < h.tensors.length) : (h.write a t).read a = t := by
  simp [Heap.read, Heap.write, List.getD, List.getElem?_set_self, ha]

theorem Heap.read_write_ne (h : Heap) (a b : Addr) (t : Tensor)
    (hne : a ≠ b) : (h.write a t).read b = h.read b := by
  simp [Heap.read, Heap.write, List.getD, List.getElem?_set_ne hne]

theorem Heap.write_length (h : Heap) (a : Addr) (t : Tensor) :
    (h.write a t).tensors.length = h.tensors.length := by
  simp [Heap.write]

/-- One tokenized prompt, as produced by `mt.tokenizer(prompts, ...,
padding="longest", return_offsets_mapping=True)`: token ids, attention
mask, and the character-offset mapping (popped off before inference). -/
structure TokenizedSeq where
  input_ids : List Nat
  attention_mask : List Nat
  offset_mapping : List (Nat × Nat)
deriving DecidableEq

/-- External collaborators of `_precompute_hs`, modelled from the spec.

* `make_prompt` — `functional.make_prompt` (functional.py is not under
  src/): renders the template for a subject, prefixed by the formatted
  in-context examples.
* `tokenize` — the tokenizer handle: batch tokenization of all prompts
  together, padded to the longest sequence (so the padded shape depends on
  the whole prompt list, never on inference batches).
* `model` — the model forward pass, per sequence: for one padded sequence
  and its attention mask it returns the hidden states of every layer
  (embedding layer included, as `output_hidden_states=True` does) at every
  position.  The spec's model handle is stateless and batching is a pure
  compute-efficiency device, so a batch forward is the per-sequence
  forward mapped over the batch.
* `find_token_range` — `tokenizer_utils.find_token_range` (not under
  src/): the (start, exclusive end) token range of the subject in the
  rendered prompt.  Its lookup failure (ambiguous or missing subject) is
  propagated by the source and is not modelled here. -/
structure PrecomputeEnv where
  make_prompt : String → String → List RelationSample → String
  tokenize : List String → List TokenizedSeq
  model : List Nat → List Nat → List (List Tensor)
  find_token_range : String → String → List (Nat × Nat) → Nat × Nat

/-- Python `range(0, len(xs), batch_size)` slicing: the list cut into consecutive
chunks of `b` elements (the last may be shorter).  For `b = 0` Python's
`range` raises; the result is `[]` here and every theorem assumes
`1 ≤ b`. -/
def batchChunks {α : Type} (b : Nat) : List α → List (List α)
  | [] => []
  | x :: xs =>
    if h : b = 0 then []
    else (x :: xs).take b :: batchChunks b ((x :: xs).drop b)
termination_by l => l.length
decreasing_by
  simp only [List.length_drop, List.length_cons]
  omega

theorem batchChunks_flatten {α : Type} (b : Nat) (hb : 1 ≤ b) :
    ∀ xs : List α, (batchChunks b xs).flatten = xs
  | [] => by simp [batchChunks]
  | x :: xs => by
    have hrec := batchChunks_flatten b hb ((x :: xs).drop b)
    have hb0 : ¬b = 0 := by omega
    rw [batchChunks]
    simp only [dif_neg hb0, List.flatten_cons, hrec, List.take_append_drop]
termination_by xs => xs.length
decreasing_by
  simp only [List.length_drop, List.length_cons]
  omega

theorem flatten_map_map {α β : Type} (f : α → β) (L : List (List α)) :
    (L.map (fun c => c.map f)).flatten = L.flatten.map f := by
  induction L with
  | nil => rfl
  | cons c L ih => simp only [List.map_cons, List.flatten_cons, List.map_append, ih]

/-- Running a per-element function over fixed-size chunks and concatenating
the results is the plain map: batch boundaries are invisible. -/
theorem batched_map_eq {α β : Type} (b : Nat) (hb : 1 ≤ b) (f : α → β)
    (xs : List α) :
    ((batchChunks b xs).map (fun c => c.map f)).flatten = xs.map f := by
  rw [flatten_map_map, batchChunks_flatten b hb]

/-- Shallow embedding of `_precompute_hs` (src/sweeps.py lines 260–306).

Faithful to the source line by line: render one prompt per subject;
tokenize all prompts together (padding to the longest is inside
`env.tokenize`, hence independent of the inference batching); run the
forward pass in `batch_size`-sized slices, dropping the embedding layer
(`torch.stack(outputs.hidden_states)[1:]`), and concatenate along the
batch dimension (`torch.cat(..., dim=1)`); then, for every subject, find
the token range of the subject in its prompt, step one token back from the
exclusive end, and slice the hidden states at that position across all
layers.  The Python `dict` keyed by subject is modelled as the association
list built in the same iteration order. -/
def _precompute_hs (env : PrecomputeEnv) (prompt_template : String)
    (subjects : List String) (examples : List RelationSample)
    (batch_size : Nat) : List (String × List Tensor) :=
  let prompts := subjects.map fun subject =>
    env.make_prompt prompt_template subject examples
  let inputs := env.tokenize prompts
  let batched_hidden_states := (batchChunks batch_size inputs).map fun batch =>
    batch.map fun s => (env.model s.input_ids s.attention_mask).drop 1
  let hidden_states := batched_hidden_states.flatten
  (List.range subjects.length).map fun i =>
    let subject := subjects.getD i ""
    let prompt := prompts.getD i ""
    let offsets := (inputs.getD i ⟨[], [], []⟩).offset_mapping
    let h_index := (env.find_token_range prompt subject offsets).2 - 1
    (subject,
      (hidden_states.getD i []).map fun layer_states => layer_states.getD h_index [])

/-- C8: the activation cache produced by `_precompute_hs` with batch size
`b ≥ 1` is identical to the one produced with batch size 1, for the same
subjects, prompt template and in-context examples: batching has no effect
on the returned mapping. -/
theorem precompute_batch_invariant (env : PrecomputeEnv)
    (prompt_template : String) (subjects : List String)
    (examples : List RelationSample) (b : Nat) (hb : 1 ≤ b) :
    _precompute_hs env prompt_template subjects examples b =
      _precompute_hs env prompt_template subjects examples 1 := by
  unfold _precompute_hs
  simp only [batched_map_eq b hb, batched_map_eq 1 le_rfl]

/-- External collaborators of `sweep_faithfulness`, modelled from the spec.

* `split` — `data.Relation.split(n)` (data.py is not under src/): a fresh
  disjoint (train, test) partition per trial; the random draw is abstracted
  by the trial index.
* `estimatorBias` — `operators.JacobianIclMeanEstimator` (operators.py is
  not under src/): fitting is deterministic in (layer, restricted
  relation); only the fitted operator's bias tensor value matters to the
  sweep, the weight being folded into `predict`.
* `predict` — the fitted operator's prediction call
  `operator(subject, h=h, k=k)`, a function of the fitting inputs (layer,
  restricted relation), the operator's current bias value, the subject,
  the hidden state and k, returning the ranked predicted tokens
  (`[p.token for p in preds.predictions]`).
* `recall` — `metrics.recall(predicted_lists, true_objects)` (metrics.py
  is not under src/).
* `pre` — the collaborators of `_precompute_hs`. -/
structure SweepEnv where
  pre : PrecomputeEnv
  split : Nat → Relation → Nat → Relation × Relation
  estimatorBias : Nat → Relation → Tensor
  predict : Nat → Relation → Tensor → String → Tensor → Nat → List String
  «recall» : List (List String) → List String → List ℚ

/-- Configuration knobs of `sweep_faithfulness` (defaults already
resolved: `h_layers` and `betas` are the concrete lists in use). -/
structure SweepConfig where
  h_layers : List Nat
  betas : List ℚ
  n_trials : Nat
  n_train_samples : Nat
  recall_k : Nat
  batch_size : Nat

/-- A record of one `_precompute_hs` call made by the sweep (instrumented
for verification; not part of the Python state). -/
structure PrecomputeCall where
  prompt_template : String
  subjects : List String
  batch_size : Nat
  examples : List RelationSample
deriving DecidableEq

/-- A record of one estimator fit performed by the sweep: the layer and the
restricted relation handed to `JacobianIclMeanEstimator`. -/
structure EstimatorCall where
  h_layer : Nat
  samples : List RelationSample
  prompt_templates : List String
deriving DecidableEq

/-- A `logger.warning` record for a skipped trial (the message interpolates
exactly these values). -/
structure WarningLog where
  relation_name : String
  n_samples : Nat
  n_train_samples : Nat
deriving DecidableEq

/-- The instrumentation trace of a sweep run: warnings logged, precompute
calls and estimator fits performed, in order. -/
structure SweepTrace where
  warnings : List WarningLog
  precomputeCalls : List PrecomputeCall
  estimatorCalls : List EstimatorCall
deriving DecidableEq

/-- The empty trace. -/
def SweepTrace.empty : SweepTrace := ⟨[], [], []⟩

/-- Trace concatenation. -/
def SweepTrace.append (a b : SweepTrace) : SweepTrace :=
  ⟨a.warnings ++ b.warnings, a.precomputeCalls ++ b.precomputeCalls,
    a.estimatorCalls ++ b.estimatorCalls⟩

/-- The evaluation of one beta on one layer as a pure function of the bias
value in force: predictions for every (subject, h) pair at that bias,
scored by the recall metric.  (`betaLoop` below performs this through the
heap; `betaLoop_spec` proves they agree.) -/
def betaEval (env : SweepEnv) (h_layer : Nat) (fitRelation : Relation)
    (test_subjects : List String) (test_hs : List Tensor)
    (test_objects : List String) (recall_k : Nat) (biasVal : Tensor) : List ℚ :=
  env.recall
    ((test_subjects.zip test_hs).map fun p =>
      env.predict h_layer fitRelation biasVal p.1 p.2 recall_k)
    test_objects

/-- The beta grid loop (src/sweeps.py lines 219–231): for each beta,
overwrite the operator's stored bias in place with the saved clone scaled
by beta (`operator.bias[:] = bias * beta`), predict for every test pair
reading the operator's current bias, and score recall.  Returns the final
heap and the `results_by_beta` list. -/
def betaLoop (env : SweepEnv) (h_layer : Nat) (fitRelation : Relation)
    (test_subjects : List String) (test_hs : List Tensor)
    (test_objects : List String) (recall_k : Nat)
    (biasAddr cloneAddr : Addr) :
    List ℚ → Heap → Heap × List SweepFaithfulnessBetaResults
  | [], h => (h, [])
  | beta :: rest, h =>
    let h' := h.write biasAddr (tensorScale (h.read cloneAddr) beta)
    let pred_objects := (test_subjects.zip test_hs).map fun p =>
      env.predict h_layer fitRelation (h'.read biasAddr) p.1 p.2 recall_k
    let «recall» := env.recall pred_objects test_objects
    let out := betaLoop env h_layer fitRelation test_subjects test_hs
      test_objects recall_k biasAddr cloneAddr rest h'
    (out.1, ⟨beta, «recall»⟩ :: out.2)

/-- The outcome of one layer iteration, keeping the final heap and the
addresses of the operator's stored bias and of the clone saved before the
beta sweep, so aliasing and final tensor values are observable. -/
structure LayerRun where
  result : SweepFaithfulnessLayerResults
  heap : Heap
  biasAddr : Addr
  cloneAddr : Addr
  fitBias : Tensor

/-- One layer iteration (src/sweeps.py lines 196–239): fit a fresh operator
on the train split restricted to the single prompt template; its bias is a
fresh tensor object, and `bias = operator.bias.clone()` allocates a second,
distinct object holding the same value; gather the test subjects, their
precomputed hidden states at this layer (`hs_by_subj[x.subject][h_layer]`)
and the true objects; then run the beta grid. -/
def runLayer (env : SweepEnv) (prompt_template : String) (relation : Relation)
    (train_samples test_samples : List RelationSample)
    (hs_by_subj : String → List Tensor) (h_layer : Nat) (betas : List ℚ)
    (recall_k : Nat) : LayerRun :=
  let fitRelation := relation.set train_samples [prompt_template]
  let fitBias := env.estimatorBias h_layer fitRelation
  let alloc1 := Heap.alloc ⟨[]⟩ fitBias
  let h1 := alloc1.1
  let biasAddr := alloc1.2
  let alloc2 := h1.alloc (h1.read biasAddr)
  let h2 := alloc2.1
  let cloneAddr := alloc2.2
  let test_subjects := test_samples.map fun x => x.subject
  let test_hs := test_samples.map fun x => (hs_by_subj x.subject).getD h_layer []
  let test_objects := test_samples.map fun x => x.object
  let out := betaLoop env h_layer fitRelation test_subjects
    test_hs test_objects recall_k biasAddr cloneAddr betas h2
  { result := ⟨h_layer, ⟨train_samples, out.2⟩⟩,
    heap := out.1, biasAddr := biasAddr, cloneAddr := cloneAddr, fitBias := fitBias }

/-- The outcome of one trial: `none` models the `continue` taken when the
relation has too few samples (the trial is omitted, not recorded). -/
structure TrialRun where
  result : Option SweepFaithfulnessTrialResults
  trace : SweepTrace

/-- One trial (src/sweeps.py lines 164–246): skip with a warning if the
relation has at most `n_train_samples` samples; otherwise draw a fresh
split, take the in-context examples as the train split minus its last
sample (`train_samples[:-1]`), precompute hidden states once for the
subjects of *all* relation samples, and iterate the layers. -/
def runTrial (env : SweepEnv) (cfg : SweepConfig) (relation : Relation)
    (prompt_template : String) (trial : Nat) : TrialRun :=
  if relation.samples.length ≤ cfg.n_train_samples then
    { result := none,
      trace := ⟨[⟨relation.name, relation.samples.length, cfg.n_train_samples⟩], [], []⟩ }
  else
    let split := env.split trial relation cfg.n_train_samples
    let train_samples := split.1.samples
    let train_icl_samples := train_samples.dropLast
    let subjects := relation.samples.map fun x => x.subject
    let hs_pairs := _precompute_hs env.pre prompt_template subjects
      train_icl_samples cfg.batch_size
    let hs_by_subj := fun s => ((hs_pairs.lookup s).getD [])
    let layer_runs := cfg.h_layers.map fun h_layer =>
      runLayer env prompt_template relation train_samples split.2.samples
        hs_by_subj h_layer cfg.betas cfg.recall_k
    let layer_results := layer_runs.map fun r => r.result
    { result := some ⟨prompt_template, train_samples, layer_results⟩,
      trace := ⟨[],
        [⟨prompt_template, subjects, cfg.batch_size, train_icl_samples⟩],
        cfg.h_layers.map fun h_layer => ⟨h_layer, train_samples, [prompt_template]⟩⟩ }

/-- All trials of one relation (src/sweeps.py lines 161–249): the prompt
template is the relation's first one; skipped trials are omitted from the
trial list. -/
def runRelation (env : SweepEnv) (cfg : SweepConfig) (relation : Relation) :
    SweepFaithfulnessRelationResults × SweepTrace :=
  let prompt_template := relation.prompt_templates.getD 0 ""
  let runs := (List.range cfg.n_trials).map fun trial =>
    runTrial env cfg relation prompt_template trial
  let trial_results := runs.filterMap fun r => r.result
  let trace := runs.foldl (fun a r => a.append r.trace) SweepTrace.empty
  (⟨relation.name, trial_results⟩, trace)

/-- Modelled from the spec: the checkpoint store behind
`experiment_utils.load_results_file` / `save_results_file`
(experiment_utils.py is not under src/), keyed by relation name. -/
abbrev Store : Type := String → Option SweepFaithfulnessRelationResults

/-- Modelled from the spec: `load_results_file(results_dir, type, name,
resume)` returns the stored result for `name` when `resume` is set, and
nothing otherwise. -/
def load_results_file (store : Store) (name : String) (resume : Bool) :
    Option SweepFaithfulnessRelationResults :=
  if resume then store name else none

/-- Modelled from the spec: `save_results_file` persists the result under
the relation name. -/
def save_results_file (store : Store) (name : String)
    (result : SweepFaithfulnessRelationResults) : Store :=
  fun n => if n = name then some result else store n

/-- The relation loop of `sweep_faithfulness` (src/sweeps.py lines
144–257): per relation, either load a checkpoint (appending it verbatim
and computing nothing) or run all trials, persist and append. -/
def sweepGo (env : SweepEnv) (cfg : SweepConfig) (resume : Bool) :
    List Relation → Store →
    List SweepFaithfulnessRelationResults × Store × SweepTrace
  | [], store => ([], store, SweepTrace.empty)
  | relation :: rest, store =>
    match load_results_file store relation.name resume with
    | some relation_result =>
      let out := sweepGo env cfg resume rest store
      (relation_result :: out.1, out.2.1, out.2.2)
    | none =>
      let run := runRelation env cfg relation
      let relation_result := run.1
      let store' := save_results_file store relation.name relation_result
      let out := sweepGo env cfg resume rest store'
      (relation_result :: out.1, out.2.1, run.2.append out.2.2)

/-- Shallow embedding of `sweep_faithfulness` (src/sweeps.py lines
123–257), returning the sweep result together with the final checkpoint
store and the instrumentation trace. -/
def sweep_faithfulness (env : SweepEnv) (cfg : SweepConfig)
    (dataset : List Relation) (store : Store) (resume : Bool) :
    SweepFaithfulnessResuts × Store × SweepTrace :=
  let out := sweepGo env cfg resume dataset store
  (⟨out.1⟩, out.2.1, out.2.2)

/-- Behaviour of the beta grid loop over a heap in which the operator's
stored bias and the clone live at distinct in-range addresses: the clone's
tensor is never written; the result list is exactly the input beta grid
mapped through `betaEval` at `original * beta` — each iteration rescales
from the untouched original, never incrementally; the heap keeps its size;
and after a non-empty grid the stored bias holds `original * last beta`. -/
theorem betaLoop_spec (env : SweepEnv) (h_layer : Nat) (fitRelation : Relation)
    (test_subjects : List String) (test_hs : List Tensor)
    (test_objects : List String) (recall_k : Nat) (biasAddr cloneAddr : Addr)
    (hne : biasAddr ≠ cloneAddr) :
    ∀ (betas : List ℚ) (h : Heap), biasAddr < h.tensors.length →
      (betaLoop env h_layer fitRelation test_subjects test_hs test_objects
          recall_k biasAddr cloneAddr betas h).1.read cloneAddr =
        h.read cloneAddr ∧
      (betaLoop env h_layer fitRelation test_subjects test_hs test_objects
          recall_k biasAddr cloneAddr betas h).1.tensors.length =
        h.tensors.length ∧
      (betaLoop env h_layer fitRelation test_subjects test_hs test_objects
          recall_k biasAddr cloneAddr betas h).2 =
        betas.map (fun beta =>
          ⟨beta, betaEval env h_layer fitRelation test_subjects test_hs
            test_objects recall_k (tensorScale (h.read cloneAddr) beta)⟩) ∧
      (∀ hbne : betas ≠ [],
        (betaLoop env h_layer fitRelation test_subjects test_hs test_objects
            recall_k biasAddr cloneAddr betas h).1.read biasAddr =
          tensorScale (h.read cloneAddr) (betas.getLast hbne))
  | [], h, hba => by
    refine ⟨rfl, rfl, rfl, ?_⟩
    intro hbne
    exact absurd rfl hbne
  | beta :: rest, h, hba => by
    set h' := h.write biasAddr (tensorScale (h.read cloneAddr) beta) with hh'
    have hclone : h'.read cloneAddr = h.read cloneAddr :=
      Heap.read_write_ne h biasAddr cloneAddr _ hne
    have hbias : h'.read biasAddr = tensorScale (h.read cloneAddr) beta :=
      Heap.read_write_self h biasAddr _ hba
    have hlen : h'.tensors.length = h.tensors.length :=
      Heap.write_length h biasAddr _
    have hba' : biasAddr < h'.tensors.length := by rw [hlen]; exact hba
    obtain ⟨ihclone, ihlen, ihmap, ihlast⟩ :=
      betaLoop_spec env h_layer fitRelation test_subjects test_hs test_objects
        recall_k biasAddr cloneAddr hne rest h' hba'
    refine ⟨?_, ?_, ?_, ?_⟩
    · show (betaLoop env h_layer fitRelation test_subjects test_hs test_objects
        recall_k biasAddr cloneAddr rest h').1.read cloneAddr = h.read cloneAddr
      rw [ihclone, hclone]
    · show (betaLoop env h_layer fitRelation test_subjects test_hs test_objects
        recall_k biasAddr cloneAddr rest h').1.tensors.length = h.tensors.length
      rw [ihlen, hlen]
    · show (⟨beta, env.recall ((test_subjects.zip test_hs).map fun p =>
          env.predict h_layer fitRelation (h'.read biasAddr) p.1 p.2 recall_k)
          test_objects⟩ :: (betaLoop env h_layer fitRelation test_subjects
            test_hs test_objects recall_k biasAddr cloneAddr rest h').2) =
        (beta :: rest).map (fun beta =>
          ⟨beta, betaEval env h_layer fitRelation test_subjects test_hs
            test_objects recall_k (tensorScale (h.read cloneAddr) beta)⟩)
      rw [ihmap, hclone, List.map_cons, hbias]
      rfl
    · intro hbne
      show (betaLoop env h_layer fitRelation test_subjects test_hs test_objects
          recall_k biasAddr cloneAddr rest h').1.read biasAddr =
        tensorScale (h.read cloneAddr) ((beta :: rest).getLast hbne)
      by_cases hrest : rest = []
      · subst hrest
        have : (betaLoop env h_layer fitRelation test_subjects test_hs
            test_objects recall_k biasAddr cloneAddr [] h') = (h', []) := rfl
        rw [this]
        simpa using hbias
      · rw [ihlast hrest, hclone, List.getLast_cons hrest]

/-- The per-layer result is the beta grid mapped through `betaEval` at
`fitBias * beta` (helper shared by the beta-grid and layer-order
theorems). -/
theorem runLayer_result (env : SweepEnv) (pt : String) (relation : Relation)
    (train_samples test_samples : List RelationSample)
    (hs_by_subj : String → List Tensor) (h_layer : Nat) (betas : List ℚ)
    (recall_k : Nat) :
    (runLayer env pt relation train_samples test_samples hs_by_subj h_layer
        betas recall_k).result =
      ⟨h_layer, ⟨train_samples, betas.map fun beta =>
        ⟨beta, betaEval env h_layer (relation.set train_samples [pt])
          (test_samples.map fun x => x.subject)
          (test_samples.map fun x => (hs_by_subj x.subject).getD h_layer [])
          (test_samples.map fun x => x.object) recall_k
          (tensorScale
            (env.estimatorBias h_layer (relation.set train_samples [pt]))
            beta)⟩⟩⟩ := by
  obtain ⟨-, -, hmap, -⟩ :=
    betaLoop_spec env h_layer (relation.set train_samples [pt])
      (test_samples.map fun x => x.subject)
      (test_samples.map fun x => (hs_by_subj x.subject).getD h_layer [])
      (test_samples.map fun x => x.object) recall_k 0 1 (by decide) betas
      ⟨[env.estimatorBias h_layer (relation.set train_samples [pt]),
        env.estimatorBias h_layer (relation.set train_samples [pt])]⟩
      (by simp)
  show (⟨h_layer, ⟨train_samples,
    (betaLoop env h_layer (relation.set train_samples [pt])
      (test_samples.map fun x => x.subject)
      (test_samples.map fun x => (hs_by_subj x.subject).getD h_layer [])
      (test_samples.map fun x => x.object) recall_k 0 1 betas
      ⟨[env.estimatorBias h_layer (relation.set train_samples [pt]),
        env.estimatorBias h_layer (relation.set train_samples [pt])]⟩).2⟩⟩ :
    SweepFaithfulnessLayerResults) = _
  rw [hmap]
  rfl

/-- C2 (amended): for every fitted operator and every non-empty beta grid,
after the full grid is evaluated the clone saved before the sweep
(`bias = operator.bias.clone()`) still holds the original (unscaled) bias
and its tensor object is distinct from — never aliases — the operator's
stored bias; the operator's stored bias itself, however, ends the sweep
holding `original * betas[-1]`, having been overwritten in place per beta
from the untouched clone. -/
theorem beta_rescaling_nondestructive_clone (env : SweepEnv) (pt : String)
    (relation : Relation) (train_samples test_samples : List RelationSample)
    (hs_by_subj : String → List Tensor) (h_layer : Nat) (betas : List ℚ)
    (recall_k : Nat) (hbne : betas ≠ []) :
    let run := runLayer env pt relation train_samples test_samples hs_by_subj
      h_layer betas recall_k
    run.cloneAddr ≠ run.biasAddr ∧
    run.heap.read run.cloneAddr = run.fitBias ∧
    run.heap.read run.biasAddr = tensorScale run.fitBias (betas.getLast hbne) := by
  intro run
  obtain ⟨hclone, -, -, hlast⟩ :=
    betaLoop_spec env h_layer (relation.set train_samples [pt])
      (test_samples.map fun x => x.subject)
      (test_samples.map fun x => (hs_by_subj x.subject).getD h_layer [])
      (test_samples.map fun x => x.object) recall_k 0 1 (by decide) betas
      ⟨[env.estimatorBias h_layer (relation.set train_samples [pt]),
        env.estimatorBias h_layer (relation.set train_samples [pt])]⟩
      (by simp)
  exact ⟨Nat.one_ne_zero, hclone.trans rfl, (hlast hbne).trans rfl⟩

/-- C4: when the relation has enough samples, the trial's recorded result
is exactly: one layer entry per candidate layer in input order, and inside
each, one `BetaResults` per beta in grid order whose recall is computed
with the operator's bias equal to `original * betas[i]` — rescaled from
the untouched fitted bias each time, never incrementally. -/
theorem beta_grid_and_layer_order (env : SweepEnv) (cfg : SweepConfig)
    (relation : Relation) (pt : String) (trial : Nat)
    (hgt : cfg.n_train_samples < relation.samples.length) :
    (runTrial env cfg relation pt trial).result = some
      ⟨pt, (env.split trial relation cfg.n_train_samples).1.samples,
        cfg.h_layers.map fun h_layer =>
          ⟨h_layer, ⟨(env.split trial relation cfg.n_train_samples).1.samples,
            cfg.betas.map fun beta =>
              ⟨beta, betaEval env h_layer
                (relation.set
                  (env.split trial relation cfg.n_train_samples).1.samples [pt])
                ((env.split trial relation cfg.n_train_samples).2.samples.map
                  fun x => x.subject)
                ((env.split trial relation cfg.n_train_samples).2.samples.map
                  fun x =>
                    (((_precompute_hs env.pre pt
                        (relation.samples.map fun y => y.subject)
                        (env.split trial relation
                          cfg.n_train_samples).1.samples.dropLast
                        cfg.batch_size).lookup x.subject).getD []).getD h_layer [])
                ((env.split trial relation cfg.n_train_samples).2.samples.map
                  fun x => x.object)
                cfg.recall_k
                (tensorScale
                  (env.estimatorBias h_layer
                    (relation.set
                      (env.split trial relation cfg.n_train_samples).1.samples
                      [pt]))
                  beta)⟩⟩⟩⟩ := by
  rw [runTrial, if_neg (Nat.not_le.mpr hgt)]
  simp only [Option.some.injEq, List.map_map, Function.comp_def, runLayer_result]

/-- The skip branch of a trial: too few samples means a warning trace and
no result (helper shared by the skip-related theorems). -/
theorem runTrial_skip (env : SweepEnv) (cfg : SweepConfig) (relation : Relation)
    (pt : String) (trial : Nat)
    (hle : relation.samples.length ≤ cfg.n_train_samples) :
    runTrial env cfg relation pt trial =
      { result := none,
        trace := ⟨[⟨relation.name, relation.samples.length, cfg.n_train_samples⟩],
          [], []⟩ } := by
  rw [runTrial, if_pos hle]

theorem filterMap_none_replicate (n : Nat) (tr : SweepTrace) :
    (List.replicate n ({ result := none, trace := tr } : TrialRun)).filterMap
      (fun r => r.result) = [] := by
  induction n with
  | zero => rfl
  | succ n ih => simpa [List.replicate_succ] using ih

/-- The trial loop's trace accumulation is the concatenation of the
per-trial traces. -/
theorem trace_foldl_eq (runs : List TrialRun) :
    ∀ acc : SweepTrace,
      runs.foldl (fun a r => a.append r.trace) acc =
        ⟨acc.warnings ++ (runs.map fun r => r.trace.warnings).flatten,
          acc.precomputeCalls ++ (runs.map fun r => r.trace.precomputeCalls).flatten,
          acc.estimatorCalls ++ (runs.map fun r => r.trace.estimatorCalls).flatten⟩ := by
  induction runs with
  | nil => intro acc; simp
  | cons r rs ih =>
    intro acc
    rw [List.foldl_cons, ih]
    simp [SweepTrace.append]

theorem flatten_replicate_singleton {α : Type} (n : Nat) (a : α) :
    (List.replicate n [a]).flatten = List.replicate n a := by
  induction n with
  | zero => rfl
  | succ n ih => simp [List.replicate_succ, ih]

/-- A relation with too few samples yields an empty trial list and one
warning per trial (helper shared by the C5 and C10 theorems). -/
theorem runRelation_insufficient (env : SweepEnv) (cfg : SweepConfig)
    (relation : Relation)
    (hle : relation.samples.length ≤ cfg.n_train_samples) :
    runRelation env cfg relation =
      (⟨relation.name, []⟩,
        ⟨List.replicate cfg.n_trials
          ⟨relation.name, relation.samples.length, cfg.n_train_samples⟩, [], []⟩) := by
  unfold runRelation
  have hruns : (List.range cfg.n_trials).map
      (fun trial => runTrial env cfg relation
        (relation.prompt_templates.getD 0 "") trial) =
      List.replicate cfg.n_trials
        ({ result := none,
           trace := ⟨[⟨relation.name, relation.samples.length,
             cfg.n_train_samples⟩], [], []⟩ } : TrialRun) := by
    refine List.eq_replicate_iff.mpr ⟨by simp, ?_⟩
    intro b hb
    obtain ⟨t, -, rfl⟩ := List.mem_map.mp hb
    exact runTrial_skip env cfg relation _ t hle
  simp only [hruns, filterMap_none_replicate, trace_foldl_eq]
  simp [SweepTrace.empty, List.map_replicate, flatten_replicate_singleton]

/-- A concrete precompute environment for exercising the theorems. -/
def cPre : PrecomputeEnv :=
  { make_prompt := fun t s _ => t ++ s,
    tokenize := fun ps => ps.map fun _ => ⟨[1], [1], [(0, 1)]⟩,
    model := fun _ _ => [[[1]], [[2]]],
    find_token_range := fun _ _ _ => (0, 1) }

/-- A concrete sweep environment for exercising the theorems. -/
def cEnv : SweepEnv :=
  { pre := cPre,
    split := fun _ r n =>
      (r.set (r.samples.take n) r.prompt_templates,
       r.set (r.samples.drop n) r.prompt_templates),
    estimatorBias := fun _ _ => [2],
    predict := fun _ _ _ _ _ _ => ["a"],
    «recall» := fun _ _ => [1] }

/-- A concrete configuration: one layer, a two-beta grid, one trial, one
training sample. -/
def cCfg : SweepConfig := ⟨[0], [0, 1], 1, 1, 1, 1⟩

/-- A two-sample relation (enough samples for `cCfg`). -/
def cRel : Relation := ⟨"r1", ["T"], [⟨"s1", "o1"⟩, ⟨"s2", "o2"⟩]⟩

/-- A second two-sample relation with a distinct name. -/
def cRel2 : Relation := ⟨"r2", ["T"], [⟨"s3", "o3"⟩, ⟨"s4", "o4"⟩]⟩

/-- A one-sample relation (too few samples for `cCfg`). -/
def cRelSmall : Relation := ⟨"r0", ["T"], [⟨"s1", "o1"⟩]⟩

/-- The empty checkpoint store. -/
def cStore : Store := fun _ => none

/-- C5: for a relation whose total sample count is at most
`n_train_samples`, every trial is skipped non-fatally: a warning is logged
per trial (with exactly the interpolated values), no precompute or
estimator work happens, and the trial list is empty — skipped trials are
omitted, not recorded as empty results.  (The skip path performs no
partial operation, so no exception can arise; the embedding is total on
it.) -/
theorem trial_skipped_on_insufficient_samples (env : SweepEnv)
    (cfg : SweepConfig) (relation : Relation)
    (hle : relation.samples.length ≤ cfg.n_train_samples) :
    (runRelation env cfg relation).1.trials = [] ∧
    (runRelation env cfg relation).2.warnings =
      List.replicate cfg.n_trials
        ⟨relation.name, relation.samples.length, cfg.n_train_samples⟩ ∧
    (runRelation env cfg relation).2.precomputeCalls = [] ∧
    (runRelation env cfg relation).2.estimatorCalls = [] := by
  rw [runRelation_insufficient env cfg relation hle]
  exact ⟨rfl, rfl, rfl, rfl⟩

/-- Witness for C5: a one-sample relation with `n_train_samples = 1`: all
trials are skipped, one warning logged, no work traced. -/
theorem trial_skipped_on_insufficient_samples_witness :
    (runRelation cEnv cCfg cRelSmall).1.trials = [] ∧
    (runRelation cEnv cCfg cRelSmall).2.warnings =
      List.replicate cCfg.n_trials ⟨cRelSmall.name, cRelSmall.samples.length,
        cCfg.n_train_samples⟩ ∧
    (runRelation cEnv cCfg cRelSmall).2.precomputeCalls = [] ∧
    (runRelation cEnv cCfg cRelSmall).2.estimatorCalls = [] :=
  trial_skipped_on_insufficient_samples cEnv cCfg cRelSmall (by decide)

/-- C10: a relation with too few samples still yields a `RelationResults`
with an empty trial list; the sweep persists that empty result under the
relation's name, includes it in the returned `SweepResult`, and a later
resumed run loads the empty result instead of retrying. -/
theorem insufficient_samples_empty_result_persisted (env : SweepEnv)
    (cfg : SweepConfig) (relation : Relation) (store : Store)
    (hle : relation.samples.length ≤ cfg.n_train_samples) :
    (sweep_faithfulness env cfg [relation] store false).1 =
      ⟨[⟨relation.name, []⟩]⟩ ∧
    (sweep_faithfulness env cfg [relation] store false).2.1 relation.name =
      some ⟨relation.name, []⟩ ∧
    (sweep_faithfulness env cfg [relation]
        (sweep_faithfulness env cfg [relation] store false).2.1 true).1 =
      (sweep_faithfulness env cfg [relation] store false).1 := by
  have hrel := runRelation_insufficient env cfg relation hle
  refine ⟨?_, ?_, ?_⟩ <;>
    simp [sweep_faithfulness, sweepGo, load_results_file, save_results_file, hrel]

/-- Witness for C10 at the one-sample relation. -/
theorem insufficient_samples_empty_result_persisted_witness :
    (sweep_faithfulness cEnv cCfg [cRelSmall] cStore false).1 =
      ⟨[⟨cRelSmall.name, []⟩]⟩ ∧
    (sweep_faithfulness cEnv cCfg [cRelSmall] cStore false).2.1 cRelSmall.name =
      some ⟨cRelSmall.name, []⟩ ∧
    (sweep_faithfulness cEnv cCfg [cRelSmall]
        (sweep_faithfulness cEnv cCfg [cRelSmall] cStore false).2.1 true).1 =
      (sweep_faithfulness cEnv cCfg [cRelSmall] cStore false).1 :=
  insufficient_samples_empty_result_persisted cEnv cCfg cRelSmall cStore (by decide)

/-- C6: in every executed trial, exactly one activation cache is built, for
the subjects of *all* the relation's samples (not only the current split),
rendered with the in-context example list `train_samples[:-1]` — the
training split minus its last sample; and every estimator fit of the trial
uses all the train samples, whose count is `n_train_samples` whenever the
split honours the spec's invariant (the hypothesis `hsplit`). -/
theorem trial_icl_and_cache_coverage (env : SweepEnv) (cfg : SweepConfig)
    (relation : Relation) (pt : String) (trial : Nat)
    (hgt : cfg.n_train_samples < relation.samples.length)
    (hsplit : (env.split trial relation cfg.n_train_samples).1.samples.length =
      cfg.n_train_samples) :
    (runTrial env cfg relation pt trial).trace.precomputeCalls =
      [⟨pt, relation.samples.map fun x => x.subject, cfg.batch_size,
        (env.split trial relation cfg.n_train_samples).1.samples.dropLast⟩] ∧
    (∀ c ∈ (runTrial env cfg relation pt trial).trace.estimatorCalls,
      c.samples = (env.split trial relation cfg.n_train_samples).1.samples) ∧
    (env.split trial relation cfg.n_train_samples).1.samples.length =
      cfg.n_train_samples := by
  rw [runTrial, if_neg (Nat.not_le.mpr hgt)]
  refine ⟨rfl, ?_, hsplit⟩
  intro c hc
  obtain ⟨hl, -, rfl⟩ := List.mem_map.mp hc
  rfl

/-- Witness for C6 at the two-sample relation with one train sample. -/
theorem trial_icl_and_cache_coverage_witness :
    (runTrial cEnv cCfg cRel "T" 0).trace.precomputeCalls =
      [⟨"T", cRel.samples.map fun x => x.subject, cCfg.batch_size,
        (cEnv.split 0 cRel cCfg.n_train_samples).1.samples.dropLast⟩] ∧
    (∀ c ∈ (runTrial cEnv cCfg cRel "T" 0).trace.estimatorCalls,
      c.samples = (cEnv.split 0 cRel cCfg.n_train_samples).1.samples) ∧
    (cEnv.split 0 cRel cCfg.n_train_samples).1.samples.length =
      cCfg.n_train_samples :=
  trial_icl_and_cache_coverage cEnv cCfg cRel "T" 0 (by decide) (by decide)

/-- Any recorded trial result carries the prompt template the trial was
invoked with (helper for the prompt-template theorem). -/
theorem runTrial_result_template (env : SweepEnv) (cfg : SweepConfig)
    (relation : Relation) (pt : String) (trial : Nat)
    (t : SweepFaithfulnessTrialResults)
    (h : (runTrial env cfg relation pt trial).result = some t) :
    t.prompt_template = pt := by
  rw [runTrial] at h
  split at h
  · exact absurd h (by simp)
  · obtain rfl := Option.some.inj h
    rfl

/-- Every precompute call of a trial uses the trial's prompt template, and
every estimator call a singleton list of it (helper for the
prompt-template theorem). -/
theorem runTrial_trace_template (env : SweepEnv) (cfg : SweepConfig)
    (relation : Relation) (pt : String) (trial : Nat) :
    (∀ c ∈ (runTrial env cfg relation pt trial).trace.precomputeCalls,
      c.prompt_template = pt) ∧
    (∀ c ∈ (runTrial env cfg relation pt trial).trace.estimatorCalls,
      c.prompt_templates = [pt]) := by
  rw [runTrial]
  split
  · exact ⟨by simp, by simp⟩
  · constructor
    · intro c hc
      obtain rfl := List.mem_singleton.mp hc
      rfl
    · intro c hc
      obtain ⟨hl, -, rfl⟩ := List.mem_map.mp hc
      rfl

/-- C9: the sweep uses only the first element of the relation's
prompt-template list: it is the template of every recorded trial result,
of every activation-cache build, and (as a singleton list) of every
estimator fit; no other template is ever consulted. -/
theorem only_first_prompt_template_used (env : SweepEnv) (cfg : SweepConfig)
    (relation : Relation) (hpt : relation.prompt_templates ≠ []) :
    (∀ t ∈ (runRelation env cfg relation).1.trials,
      t.prompt_template = relation.prompt_templates.getD 0 "") ∧
    (∀ c ∈ (runRelation env cfg relation).2.precomputeCalls,
      c.prompt_template = relation.prompt_templates.getD 0 "") ∧
    (∀ c ∈ (runRelation env cfg relation).2.estimatorCalls,
      c.prompt_templates = [relation.prompt_templates.getD 0 ""]) := by
  unfold runRelation
  simp only [trace_foldl_eq]
  refine ⟨?_, ?_, ?_⟩
  · intro t ht
    obtain ⟨r, hr, hres⟩ := List.mem_filterMap.mp ht
    obtain ⟨trial, -, rfl⟩ := List.mem_map.mp hr
    exact runTrial_result_template env cfg relation _ trial t hres
  · intro c hc
    simp only [SweepTrace.empty, List.nil_append] at hc
    obtain ⟨l, hl, hcl⟩ := List.mem_flatten.mp hc
    obtain ⟨r, hr, rfl⟩ := List.mem_map.mp hl
    obtain ⟨trial, -, rfl⟩ := List.mem_map.mp hr
    exact (runTrial_trace_template env cfg relation _ trial).1 c hcl
  · intro c hc
    simp only [SweepTrace.empty, List.nil_append] at hc
    obtain ⟨l, hl, hcl⟩ := List.mem_flatten.mp hc
    obtain ⟨r, hr, rfl⟩ := List.mem_map.mp hl
    obtain ⟨trial, -, rfl⟩ := List.mem_map.mp hr
    exact (runTrial_trace_template env cfg relation _ trial).2 c hcl

/-- Witness for C9 at the two-sample relation. -/
theorem only_first_prompt_template_used_witness :
    (∀ t ∈ (runRelation cEnv cCfg cRel).1.trials,
      t.prompt_template = cRel.prompt_templates.getD 0 "") ∧
    (∀ c ∈ (runRelation cEnv cCfg cRel).2.precomputeCalls,
      c.prompt_template = cRel.prompt_templates.getD 0 "") ∧
    (∀ c ∈ (runRelation cEnv cCfg cRel).2.estimatorCalls,
      c.prompt_templates = [cRel.prompt_templates.getD 0 ""]) :=
  only_first_prompt_template_used cEnv cCfg cRel (by decide)

/-- Relation names outside a dataset are untouched by the sweep's
checkpoint writes. -/
theorem sweepGo_store_keeps (env : SweepEnv) (cfg : SweepConfig)
    (resume : Bool) :
    ∀ (ds : List Relation) (store : Store) (n : String),
      n ∉ ds.map (fun r => r.name) →
      (sweepGo env cfg resume ds store).2.1 n = store n
  | [], _, _, _ => rfl
  | rel :: rest, store, n, hn => by
    simp only [List.map_cons, List.mem_cons, not_or] at hn
    rw [sweepGo]
    cases hload : load_results_file store rel.name resume with
    | some r =>
      simp only [hload]
      exact sweepGo_store_keeps env cfg resume rest store n hn.2
    | none =>
      simp only [hload]
      rw [sweepGo_store_keeps env cfg resume rest _ n hn.2]
      simp [save_results_file, hn.1]

/-- Without `resume`, the sweep computes every relation in dataset order. -/
theorem sweepGo_false_results (env : SweepEnv) (cfg : SweepConfig) :
    ∀ (ds : List Relation) (store : Store),
      (sweepGo env cfg false ds store).1 =
        ds.map (fun rel => (runRelation env cfg rel).1)
  | [], _ => rfl
  | rel :: rest, store => by
    rw [sweepGo]
    have hload : load_results_file store rel.name false = none := rfl
    simp only [hload, List.map_cons]
    rw [sweepGo_false_results env cfg rest _]

/-- Without `resume`, and with pairwise-distinct relation names, the final
store holds each relation's computed result under its name. -/
theorem sweepGo_false_store (env : SweepEnv) (cfg : SweepConfig) :
    ∀ (ds : List Relation) (store : Store),
      ds.Pairwise (fun a b => a.name ≠ b.name) →
      ∀ rel ∈ ds,
        (sweepGo env cfg false ds store).2.1 rel.name =
          some (runRelation env cfg rel).1
  | [], _, _, rel, hrel => absurd hrel (by simp)
  | r :: rest, store, hpw, rel, hrel => by
    obtain ⟨hhead, htail⟩ := List.pairwise_cons.mp hpw
    rw [sweepGo]
    have hload : load_results_file store r.name false = none := rfl
    simp only [hload]
    rcases List.mem_cons.mp hrel with rfl | hmem
    · have hnotin : rel.name ∉ rest.map (fun x => x.name) := by
        intro hmem'
        obtain ⟨b, hb, hEq⟩ := List.mem_map.mp hmem'
        exact hhead b hb hEq.symm
      rw [sweepGo_store_keeps env cfg false rest _ rel.name hnotin]
      simp [save_results_file]
    · exact sweepGo_false_store env cfg rest _ htail rel hmem

/-- With `resume` and a store holding every relation's computed result, the
sweep loads everything: same results, untouched store, empty trace. -/
theorem sweepGo_true_loads (env : SweepEnv) (cfg : SweepConfig) :
    ∀ (ds : List Relation) (store : Store),
      (∀ rel ∈ ds, store rel.name = some (runRelation env cfg rel).1) →
      sweepGo env cfg true ds store =
        (ds.map (fun rel => (runRelation env cfg rel).1), store, SweepTrace.empty)
  | [], _, _ => rfl
  | rel :: rest, store, hstore => by
    rw [sweepGo]
    have hload : load_results_file store rel.name true =
        some (runRelation env cfg rel).1 := by
      simp [load_results_file, hstore rel (by simp)]
    simp only [hload, List.map_cons]
    rw [sweepGo_true_loads env cfg rest store
      (fun r hr => hstore r (List.mem_cons_of_mem _ hr))]

/-- C7: per relation, when `resume` is set and the checkpoint store holds a
result under the relation's name, the sweep appends the loaded result
verbatim, leaves the store untouched and performs no trial computation
(empty trace); consequently, for a dataset with pairwise-distinct relation
names, running the sweep once and then again with `resume` on the
resulting store yields the same `SweepResult`, the same store, and no
recomputation. -/
theorem sweep_resume_idempotent (env : SweepEnv) (cfg : SweepConfig)
    (ds : List Relation) (store : Store)
    (hnames : ds.Pairwise (fun a b => a.name ≠ b.name)) :
    (∀ (relation : Relation) (s : Store) (r : SweepFaithfulnessRelationResults),
      s relation.name = some r →
      sweep_faithfulness env cfg [relation] s true = (⟨[r]⟩, s, SweepTrace.empty)) ∧
    (sweep_faithfulness env cfg ds
        (sweep_faithfulness env cfg ds store false).2.1 true).1 =
      (sweep_faithfulness env cfg ds store false).1 ∧
    (sweep_faithfulness env cfg ds
        (sweep_faithfulness env cfg ds store false).2.1 true).2.1 =
      (sweep_faithfulness env cfg ds store false).2.1 ∧
    (sweep_faithfulness env cfg ds
        (sweep_faithfulness env cfg ds store false).2.1 true).2.2 =
      SweepTrace.empty := by
  refine ⟨?_, ?_⟩
  · intro relation s r h
    simp [sweep_faithfulness, sweepGo, load_results_file, h]
  · have hstore : ∀ rel ∈ ds,
        (sweepGo env cfg false ds store).2.1 rel.name =
          some (runRelation env cfg rel).1 :=
      sweepGo_false_store env cfg ds store hnames
    have htrue := sweepGo_true_loads env cfg ds
      (sweepGo env cfg false ds store).2.1 hstore
    have hfalse := sweepGo_false_results env cfg ds store
    refine ⟨?_, ?_, ?_⟩ <;>
      simp [sweep_faithfulness, htrue, hfalse]

/-- Witness for C7 on a two-relation dataset with distinct names, from the
empty store. -/
theorem sweep_resume_idempotent_witness :
    (∀ (relation : Relation) (s : Store) (r : SweepFaithfulnessRelationResults),
      s relation.name = some r →
      sweep_faithfulness cEnv cCfg [relation] s true = (⟨[r]⟩, s, SweepTrace.empty)) ∧
    (sweep_faithfulness cEnv cCfg [cRel, cRel2]
        (sweep_faithfulness cEnv cCfg [cRel, cRel2] cStore false).2.1 true).1 =
      (sweep_faithfulness cEnv cCfg [cRel, cRel2] cStore false).1 ∧
    (sweep_faithfulness cEnv cCfg [cRel, cRel2]
        (sweep_faithfulness cEnv cCfg [cRel, cRel2] cStore false).2.1 true).2.1 =
      (sweep_faithfulness cEnv cCfg [cRel, cRel2] cStore false).2.1 ∧
    (sweep_faithfulness cEnv cCfg [cRel, cRel2]
        (sweep_faithfulness cEnv cCfg [cRel, cRel2] cStore false).2.1 true).2.2 =
      SweepTrace.empty :=
  sweep_resume_idempotent cEnv cCfg [cRel, cRel2] cStore (by decide)

/-- Witness for C2 (amended) at the one-beta grid `[1]` (whose last beta is
1): the clone is a distinct object still holding the fitted bias, and the
stored bias ends as `fitBias * 1`. -/
theorem beta_rescaling_nondestructive_clone_witness :
    let run := runLayer cEnv "T" cRel [] [] (fun _ => []) 0 [1] 1
    run.cloneAddr ≠ run.biasAddr ∧
    run.heap.read run.cloneAddr = run.fitBias ∧
    run.heap.read run.biasAddr = tensorScale run.fitBias 1 :=
  beta_rescaling_nondestructive_clone cEnv "T" cRel [] [] (fun _ => []) 0 [1] 1
    (by decide)

/-- The layer run refuting C2 as stated: fitted bias `[2]`, beta grid
`[0]`. -/
def c2Run : LayerRun := runLayer cEnv "T" cRel [] [] (fun _ => []) 0 [0] 1

/-- Counterexample to C2 as stated: after evaluating the full beta grid
`[0]`, the operator's *stored* bias tensor is `[0] = original * 0`, not the
original `[2]` it held before the sweep — `operator.bias[:] = bias * beta`
overwrites the stored bias in place and the last write is never undone. -/
theorem beta_rescaling_destructive_cex :
    c2Run.heap.read c2Run.biasAddr = [0] ∧ c2Run.fitBias = [2] ∧
    c2Run.heap.read c2Run.biasAddr ≠ c2Run.fitBias := by
  have h : (betaLoop cEnv 0 (cRel.set [] ["T"]) [] [] [] 1 0 1 [0]
      ⟨[[2], [2]]⟩).1.read 0 = [0] := by
    simp [betaLoop, Heap.read, Heap.write, tensorScale, cEnv]
  refine ⟨h, rfl, ?_⟩
  intro hcontra
  rw [show c2Run.heap.read c2Run.biasAddr = [0] from h] at hcontra
  have : (0 : ℚ) = 2 := by injection hcontra
  norm_num at this

/-- Witness for C4 at the two-sample relation: one layer entry for the
single candidate layer, one `BetaResults` per beta of the grid `[0, 1]`,
each evaluated at the fitted bias rescaled by its own beta. -/
theorem beta_grid_and_layer_order_witness :
    (runTrial cEnv cCfg cRel "T" 0).result = some
      ⟨"T", (cEnv.split 0 cRel cCfg.n_train_samples).1.samples,
        cCfg.h_layers.map fun h_layer =>
          ⟨h_layer, ⟨(cEnv.split 0 cRel cCfg.n_train_samples).1.samples,
            cCfg.betas.map fun beta =>
              ⟨beta, betaEval cEnv h_layer
                (cRel.set
                  (cEnv.split 0 cRel cCfg.n_train_samples).1.samples ["T"])
                ((cEnv.split 0 cRel cCfg.n_train_samples).2.samples.map
                  fun x => x.subject)
                ((cEnv.split 0 cRel cCfg.n_train_samples).2.samples.map
                  fun x =>
                    (((_precompute_hs cEnv.pre "T"
                        (cRel.samples.map fun y => y.subject)
                        (cEnv.split 0 cRel
                          cCfg.n_train_samples).1.samples.dropLast
                        cCfg.batch_size).lookup x.subject).getD []).getD h_layer [])
                ((cEnv.split 0 cRel cCfg.n_train_samples).2.samples.map
                  fun x => x.object)
                cCfg.recall_k
                (tensorScale
                  (cEnv.estimatorBias h_layer
                    (cRel.set
                      (cEnv.split 0 cRel cCfg.n_train_samples).1.samples
                      ["T"]))
                  beta)⟩⟩⟩⟩ :=
  beta_grid_and_layer_order cEnv cCfg cRel "T" 0 (by decide)

/-- Witness for C8: three subjects, batch size 2 versus 1. -/
theorem precompute_batch_invariant_witness :
    _precompute_hs cPre "T" ["s1", "s2", "s3"] [] 2 =
      _precompute_hs cPre "T" ["s1", "s2", "s3"] [] 1 :=
  precompute_batch_invariant cPre "T" ["s1", "s2", "s3"] [] 2 (by decide)
